import Mathlib

/-!
Verification development for the AICam machining-recommendation engine.

The Python source is shallowly embedded:
* `Parameters` / `Dimensions` model the dynamic parameter dictionaries of
  `intelligent_machining_system.py`; an absent dictionary key (or a key bound
  to `None`) is `none`, a present value is `some v`.  Python truthiness of a
  field (`if parameters['x']`, `if dims.get(k)`) is modelled by `strTruthy` /
  `ratTruthy`: `None`, the empty string and `0.0` are falsy.
* Numeric values are modelled as exact rationals (`Rat`); every arithmetic
  operation the engine performs (`min`, `* 2`, comparisons, parsing of decimal
  literals) is exact on the inputs it sees, so no floating-point rounding is
  involved in any claim considered here.
* The Neo4j store is modelled as in-memory lists of `Tool` / `ProcessTemplate`
  rows; the Cypher `ORDER BY` is modelled as a stable insertion sort on the
  query's sort key.
-/

namespace AICam

/-- Python truthiness of an optional string: `None` and `""` are falsy. -/
def strTruthy : Option String → Bool
  | none => false
  | some s => s ≠ ""

/-- Python truthiness of an optional number: `None` and `0.0` are falsy. -/
def ratTruthy : Option Rat → Bool
  | none => false
  | some x => x ≠ 0

/-- The `dimensions` sub-dictionary of a parameter set
(`intelligent_machining_system.py`, `_extract_parameters_from_text`):
recognized keys diameter / length / width / height / depth. -/
@[ext]
structure Dimensions where
  diameter : Option Rat
  length : Option Rat
  width : Option Rat
  height : Option Rat
  depth : Option Rat
deriving DecidableEq, Repr

/-- The parameter dictionary produced by rule extraction, LLM extraction and
merging: three categorical fields plus the dimension map. -/
@[ext]
structure Parameters where
  feature_name : Option String
  surface_type : Option String
  process_stage : Option String
  dimensions : Dimensions
deriving DecidableEq, Repr

/-- The empty parameter set `_extract_parameters_from_text` starts from. -/
def emptyParameters : Parameters :=
  { feature_name := none, surface_type := none, process_stage := none,
    dimensions := { diameter := none, length := none, width := none,
                    height := none, depth := none } }

/-- Embedding of `_normalize_feature_name` from `intelligent_machining_system.py`
(lines 145-160): exact lookup in the synonym table, pass-through for
unknown names. -/
def normalize_feature_name (s : String) : String :=
  if s = "圆形通孔" then "圆柱通孔"
  else if s = "圆孔" then "圆柱通孔"
  else if s = "圆形孔" then "圆柱通孔"
  else if s = "矩形孔" then "矩形通孔"
  else if s = "方孔" then "矩形通孔"
  else if s = "圆台" then "圆柱凸台"
  else if s = "矩形槽" then "矩形凹槽"
  else if s = "方槽" then "矩形凹槽"
  else if s = "凹槽" then "矩形凹槽"
  else s

/-- One categorical field of `_merge_parameters` (lines 319-335):
`if llm_params.get(key) and not merged.get(key): merged[key] = llm_params[key]`,
i.e. the LLM value replaces the rule value exactly when the LLM value is
truthy and the rule value is falsy. -/
def mergeField (ruleV llmV : Option String) : Option String :=
  if strTruthy llmV ∧ ¬ strTruthy ruleV then llmV else ruleV

/-- One dimension key of `_merge_parameters`:
`if dim_value and not merged['dimensions'].get(dim_key): ... = float(dim_value)`.
LLM dimension values are modelled after the `float` coercion, as exact
rationals. -/
def mergeDim (ruleV llmV : Option Rat) : Option Rat :=
  if ratTruthy llmV ∧ ¬ ratTruthy ruleV then llmV else ruleV

/-- Embedding of `_merge_parameters` (lines 319-335).  `llm = none` models a falsy
`llm_params` dictionary (the `{}` returned by a failed LLM analysis), for
which the whole merge body is skipped. -/
def merge_parameters (rule : Parameters) (llm : Option Parameters) : Parameters :=
  match llm with
  | none => rule
  | some l =>
    { feature_name := mergeField rule.feature_name l.feature_name
      surface_type := mergeField rule.surface_type l.surface_type
      process_stage := mergeField rule.process_stage l.process_stage
      dimensions :=
        { diameter := mergeDim rule.dimensions.diameter l.dimensions.diameter
          length := mergeDim rule.dimensions.length l.dimensions.length
          width := mergeDim rule.dimensions.width l.dimensions.width
          height := mergeDim rule.dimensions.height l.dimensions.height
          depth := mergeDim rule.dimensions.depth l.dimensions.depth } }

/-- Embedding of `_infer_missing_parameters` (lines 212-240), rule order as in the source:
1. if `diameter` is truthy, fill falsy `length` / `width` with it;
2. default falsy `process_stage` to `粗加工`;
3. default falsy `surface_type` to `plane`;
4. if both `height` and `depth` are falsy: if the `diameter` KEY is present
   (a key-presence test in the source, not a truthiness test), set
   `height = diameter * 2`, else `height = 10.0`;
5. else if `depth` is truthy and `height` falsy, set `height = depth`. -/
def infer_missing_parameters (p : Parameters) : Parameters :=
  let d0 := p.dimensions
  let d1 : Dimensions :=
    if ratTruthy d0.diameter then
      { d0 with
        length := if ratTruthy d0.length then d0.length else d0.diameter
        width := if ratTruthy d0.width then d0.width else d0.diameter }
    else d0
  let stage := if strTruthy p.process_stage then p.process_stage else some "粗加工"
  let surface := if strTruthy p.surface_type then p.surface_type else some "plane"
  let d2 : Dimensions :=
    if ¬ ratTruthy d1.height ∧ ¬ ratTruthy d1.depth then
      if d1.diameter.isSome then
        { d1 with height := Option.map (fun x => x * 2) d1.diameter }
      else
        { d1 with height := some 10 }
    else if ratTruthy d1.depth ∧ ¬ ratTruthy d1.height then
      { d1 with height := d1.depth }
    else d1
  { p with process_stage := stage, surface_type := surface, dimensions := d2 }

/-- One `Tool` row of the knowledge store, with the properties the advisor's
Cypher query returns (`machining_advisor.py`, `find_suitable_tools`). -/
structure Tool where
  tool_id : String
  tool_name : String
  diameter : Rat
  extension_length : Rat
  r_angle : Rat
  flute_count : Nat
deriving DecidableEq, Repr

/-- One joined `(f:Feature)-[:HAS_PROCESS]->(p:Process)` row of the knowledge
store, with the properties returned by `find_process_template`;
`feature_name` is the `f.name` of the owning feature. -/
structure ProcessTemplate where
  template_id : String
  process_type : String
  feature_surface : String
  surface_type : String
  process_stage : String
  component_surface : String
  feature_name : String
deriving DecidableEq, Repr

/-- The knowledge store contents visible to the advisor's two read queries. -/
structure Store where
  tools : List Tool
  templates : List ProcessTemplate

/-- Sort key of the tool query's `ORDER BY t.diameter DESC,
t.extension_length ASC`: `a` may come before `b` when `a` has the larger
diameter, or equal diameter and the smaller-or-equal extension length. -/
def toolOrder (a b : Tool) : Prop :=
  b.diameter < a.diameter ∨
    (a.diameter = b.diameter ∧ a.extension_length ≤ b.extension_length)

instance : DecidableRel toolOrder := fun a b => by
  unfold toolOrder; infer_instance

instance : IsTotal Tool toolOrder where
  total a b := by
    unfold toolOrder
    rcases lt_trichotomy a.diameter b.diameter with h | h | h
    · exact Or.inr (Or.inl h)
    · rcases le_total a.extension_length b.extension_length with h2 | h2
      · exact Or.inl (Or.inr ⟨h, h2⟩)
      · exact Or.inr (Or.inr ⟨h.symm, h2⟩)
    · exact Or.inl (Or.inl h)

instance : IsTrans Tool toolOrder where
  trans a b c hab hbc := by
    unfold toolOrder at *
    rcases hab with h1 | ⟨h1, h1e⟩ <;> rcases hbc with h2 | ⟨h2, h2e⟩
    · exact Or.inl (h2.trans h1)
    · exact Or.inl (h2 ▸ h1)
    · exact Or.inl (h1 ▸ h2)
    · exact Or.inr ⟨h1.trans h2, h1e.trans h2e⟩

/-- Sort key of the template query's `ORDER BY p.template_id` (ascending). -/
def templateOrder (a b : ProcessTemplate) : Prop :=
  a.template_id ≤ b.template_id

instance : DecidableRel templateOrder := fun a b => by
  unfold templateOrder; infer_instance

instance : IsTotal ProcessTemplate templateOrder where
  total a b := le_total a.template_id b.template_id

instance : IsTrans ProcessTemplate templateOrder where
  trans _ _ _ hab hbc := le_trans hab hbc

/-- The `WHERE` clause of the tool query (`machining_advisor.py` line 60):
`t.diameter <= $diameter_limit AND t.extension_length > $height`. -/
def toolMatches (diameter_limit height : Rat) (t : Tool) : Bool :=
  decide (t.diameter ≤ diameter_limit ∧ height < t.extension_length)

/-- The tool query of `find_suitable_tools` against a reachable store:
filter by the `WHERE` clause, then `ORDER BY t.diameter DESC,
t.extension_length ASC` (modelled as a stable sort). -/
def queryTools (tools : List Tool) (diameter_limit height : Rat) : List Tool :=
  List.insertionSort toolOrder (tools.filter (toolMatches diameter_limit height))

/-- The `WHERE` clause of the template query (lines 111-113):
`f.name = $feature_name AND (p.surface_type = $surface_type OR
p.feature_surface = $surface_type) AND p.process_stage = $process_stage`. -/
def templateMatches (feature_name surface_type process_stage : String)
    (p : ProcessTemplate) : Bool :=
  decide (p.feature_name = feature_name ∧
    (p.surface_type = surface_type ∨ p.feature_surface = surface_type) ∧
    p.process_stage = process_stage)

/-- The template query of `find_process_template` against a reachable store:
filter by the `WHERE` clause, then `ORDER BY p.template_id` (stable sort). -/
def queryTemplates (templates : List ProcessTemplate)
    (feature_name surface_type process_stage : String) : List ProcessTemplate :=
  List.insertionSort templateOrder
    (templates.filter (templateMatches feature_name surface_type process_stage))

/-- Embedding of `find_suitable_tools` (lines 41-88).  `driver = none` models
`self.driver` being unset (`if not self.driver: return []`); `queryRaises`
models the `except` branch around the session query (`return []`). -/
def find_suitable_tools (driver : Option Store) (queryRaises : Bool)
    (diameter_limit height : Rat) : List Tool :=
  match driver with
  | none => []
  | some s => if queryRaises then [] else queryTools s.tools diameter_limit height

/-- Embedding of `find_process_template` (lines 90-144), with the same connectivity and
exception modelling as `find_suitable_tools`. -/
def find_process_template (driver : Option Store) (queryRaises : Bool)
    (feature_name surface_type process_stage : String) : List ProcessTemplate :=
  match driver with
  | none => []
  | some s =>
    if queryRaises then []
    else queryTemplates s.templates feature_name surface_type process_stage

/-- The part of the `get_machining_recommendation` result dictionary
(lines 146-192) that downstream code consumes. -/
structure Recommendation where
  process_templates : List ProcessTemplate
  suitable_tools : List Tool
deriving Repr

/-- Embedding of `get_machining_recommendation` (lines 146-192): compute
`diameter_limit = min(length, width)`, run both queries, assemble the
recommendation.  `templateQueryRaises` / `toolQueryRaises` model an
exception inside the respective query. -/
def get_machining_recommendation (driver : Option Store)
    (templateQueryRaises toolQueryRaises : Bool)
    (feature_name surface_type process_stage : String)
    (length width height : Rat) : Recommendation :=
  let diameter_limit := min length width
  { process_templates :=
      find_process_template driver templateQueryRaises
        feature_name surface_type process_stage
    suitable_tools :=
      find_suitable_tools driver toolQueryRaises diameter_limit height }

/-- The "best tool" designation of `_generate_recommendation_summary`
(line 213): `best_tool = suitable_tools[0]`. -/
def best_tool (suitable_tools : List Tool) : Option Tool :=
  suitable_tools.head?

/-- Embedding of `_generate_standardized_answer` from `intelligent_machining_system.py`
(lines 361-377).  `rec = none` models a falsy `machining_recommendation`. -/
def generate_standardized_answer (rec : Option Recommendation) : String :=
  match rec with
  | none => "推荐模板ID：无  推荐加工工艺：无  推荐刀具ID：无"
  | some r =>
    let template_id :=
      match r.process_templates.head? with
      | some t => t.template_id
      | none => "无"
    let process_type :=
      match r.process_templates.head? with
      | some t => t.process_type
      | none => "无"
    let tool_id :=
      match r.suitable_tools.head? with
      | some t => t.tool_id
      | none => "无"
    "推荐模板ID：" ++ template_id ++ "  推荐加工工艺：" ++ process_type ++
      "  推荐刀具ID：" ++ tool_id

/-- The JSON-substring extraction of `_analyze_question_with_llm`
(`intelligent_machining_system.py` line 199):
`re.search(r'\x7b.*\x7d', response, re.DOTALL)`.  The leftmost greedy match
runs from the FIRST `\x7b` of the response to the LAST `\x7d` after it;
`none` models "no match". -/
def jsonSpan (cs : List Char) : Option (List Char) :=
  let t := cs.dropWhile (fun c => c ≠ '\x7b')
  let r := (t.reverse.dropWhile (fun c => c ≠ '\x7d')).reverse
  if r = [] then none else some r

/-- Brace-matching scanner used only by `specFirstBalancedSpan`: consume
characters until the depth counter (starting at `depth ≥ 1`) returns to
zero, returning the consumed characters. -/
def takeBalanced : List Char → Nat → Option (List Char)
  | [], _ => none
  | c :: cs, depth =>
    if c = '\x7b' then (takeBalanced cs (depth + 1)).map (c :: ·)
    else if c = '\x7d' then
      if depth = 1 then some [c] else (takeBalanced cs (depth - 1)).map (c :: ·)
    else (takeBalanced cs depth).map (c :: ·)

/-- The extraction as the specification words it ("extracts the first
balanced `\x7b...\x7d` substring of the response"), written here only to be
compared with the source's `jsonSpan`: scan to the first `\x7b`, then take
characters until the brace depth returns to zero. -/
def specFirstBalancedSpan (cs : List Char) : Option (List Char) :=
  match cs.dropWhile (fun c => c ≠ '\x7b') with
  | [] => none
  | b :: rest => (takeBalanced rest 1).map (b :: ·)

/-- Embedding of `_analyze_question_with_llm` (lines 162-210), after the LLM call.
`response = none` models the call raising (or a falsy response);
`parseJson` models `json.loads` on the extracted span, `none` being a
parse error.  A `none` result models the empty dictionary that every
failure path returns to the caller. -/
def analyze_question_with_llm (parseJson : List Char → Option Parameters)
    (response : Option (List Char)) : Option Parameters :=
  match response with
  | none => none
  | some cs =>
    match jsonSpan cs with
    | none => none
    | some span => parseJson span

/-! ### Helper lemmas -/

/-- Stability of the modelled `ORDER BY`: filtering the sorted list by any
predicate whose satisfying elements are mutually related recovers exactly
the filtered input, in input order. -/
theorem filter_insertionSort_of_mutual {α : Type} (r : α → α → Prop)
    [DecidableRel r] [IsTotal α r] [IsTrans α r] (p : α → Bool)
    (l : List α) (hp : ∀ a b, p a = true → p b = true → r a b) :
    (List.insertionSort r l).filter p = l.filter p := by
  have hpair : (l.filter p).Pairwise r := by
    refine List.pairwise_of_forall_mem_list fun a ha b hb => ?_
    exact hp a b (List.of_mem_filter ha) (List.of_mem_filter hb)
  have hsub : List.Sublist (l.filter p) (List.insertionSort r l) :=
    List.sublist_insertionSort hpair (List.filter_sublist l)
  have hsub2 : List.Sublist ((l.filter p).filter p)
      ((List.insertionSort r l).filter p) := hsub.filter p
  have hidem : (l.filter p).filter p = l.filter p := by
    simp [List.filter_filter]
  have hperm : List.Perm ((List.insertionSort r l).filter p) (l.filter p) :=
    (List.perm_insertionSort r l).filter p
  have hlen : (l.filter p).length = ((List.insertionSort r l).filter p).length :=
    hperm.length_eq.symm
  exact ((hidem ▸ hsub2).eq_of_length hlen).symm

/-- C3 boundary/filter fact specialized to membership through the sort. -/
theorem mem_queryTools {tools : List Tool} {diameter_limit height : Rat} {t : Tool} :
    t ∈ queryTools tools diameter_limit height ↔
      t ∈ tools ∧ t.diameter ≤ diameter_limit ∧ height < t.extension_length := by
  simp [queryTools, List.mem_insertionSort, List.mem_filter, toolMatches, and_assoc]

/-- Completion never touches the feature name. -/
theorem infer_feature_eq (p : Parameters) :
    (infer_missing_parameters p).feature_name = p.feature_name := rfl

/-- Rule 2 of `_infer_missing_parameters`, as a field equation. -/
theorem infer_stage_eq (p : Parameters) :
    (infer_missing_parameters p).process_stage =
      if strTruthy p.process_stage then p.process_stage else some "粗加工" := rfl

/-- Rule 3 of `_infer_missing_parameters`, as a field equation. -/
theorem infer_surface_eq (p : Parameters) :
    (infer_missing_parameters p).surface_type =
      if strTruthy p.surface_type then p.surface_type else some "plane" := rfl

/-- Completion never touches the diameter. -/
theorem infer_diameter_eq (p : Parameters) :
    (infer_missing_parameters p).dimensions.diameter = p.dimensions.diameter := by
  rcases p with ⟨fn, st, ps, ⟨dia, len, wid, hei, dep⟩⟩
  simp only [infer_missing_parameters]
  split_ifs <;> rfl

/-- Completion never touches the depth. -/
theorem infer_depth_eq (p : Parameters) :
    (infer_missing_parameters p).dimensions.depth = p.dimensions.depth := by
  rcases p with ⟨fn, st, ps, ⟨dia, len, wid, hei, dep⟩⟩
  simp only [infer_missing_parameters]
  split_ifs <;> rfl

/-- Rule 1 of `_infer_missing_parameters` for the length, as a field
equation. -/
theorem infer_length_eq (p : Parameters) :
    (infer_missing_parameters p).dimensions.length =
      if ratTruthy p.dimensions.diameter ∧ ¬ ratTruthy p.dimensions.length
      then p.dimensions.diameter else p.dimensions.length := by
  rcases p with ⟨fn, st, ps, ⟨dia, len, wid, hei, dep⟩⟩
  simp only [infer_missing_parameters]
  split_ifs <;> simp_all

/-- Rule 1 of `_infer_missing_parameters` for the width, as a field
equation. -/
theorem infer_width_eq (p : Parameters) :
    (infer_missing_parameters p).dimensions.width =
      if ratTruthy p.dimensions.diameter ∧ ¬ ratTruthy p.dimensions.width
      then p.dimensions.diameter else p.dimensions.width := by
  rcases p with ⟨fn, st, ps, ⟨dia, len, wid, hei, dep⟩⟩
  simp only [infer_missing_parameters]
  split_ifs <;> simp_all

/-- Rules 4-5 of `_infer_missing_parameters`, as a field equation (rule 1
does not modify the fields these rules read, so the conditions can be
stated over the input). -/
theorem infer_height_eq (p : Parameters) :
    (infer_missing_parameters p).dimensions.height =
      if ¬ ratTruthy p.dimensions.height ∧ ¬ ratTruthy p.dimensions.depth then
        (if p.dimensions.diameter.isSome
         then Option.map (fun x => x * 2) p.dimensions.diameter else some 10)
      else if ratTruthy p.dimensions.depth ∧ ¬ ratTruthy p.dimensions.height
      then p.dimensions.depth
      else p.dimensions.height := by
  rcases p with ⟨fn, st, ps, ⟨dia, len, wid, hei, dep⟩⟩
  simp only [infer_missing_parameters]
  split_ifs <;> simp_all

/-! ### Claim theorems -/

/-- C3: a tool is selected iff `tool.diameter <= diameter_limit` and
`tool.extension_length > height`, where `diameter_limit = min(length, width)`
as computed by `get_machining_recommendation`; the diameter bound is
inclusive and the extension-length bound is strict. -/
theorem C3_tool_selection (store : Store) (fn st ps : String)
    (length width height : Rat) (t : Tool) :
    (t ∈ (get_machining_recommendation (some store) false false fn st ps
        length width height).suitable_tools ↔
      t ∈ store.tools ∧ t.diameter ≤ min length width ∧
        height < t.extension_length) ∧
    (t ∈ store.tools → t.diameter = min length width →
      height < t.extension_length →
      t ∈ (get_machining_recommendation (some store) false false fn st ps
        length width height).suitable_tools) ∧
    (t.extension_length = height →
      t ∉ (get_machining_recommendation (some store) false false fn st ps
        length width height).suitable_tools) := by
  have hmem : (get_machining_recommendation (some store) false false fn st ps
      length width height).suitable_tools =
      queryTools store.tools (min length width) height := by
    simp [get_machining_recommendation, find_suitable_tools]
  refine ⟨?_, ?_, ?_⟩
  · rw [hmem]; exact mem_queryTools
  · intro h1 h2 h3
    rw [hmem]
    exact mem_queryTools.mpr ⟨h1, le_of_eq h2, h3⟩
  · intro he hmem2
    rw [hmem] at hmem2
    have := (mem_queryTools.mp hmem2).2.2
    rw [he] at this
    exact lt_irrefl height this

/-- C3 witness: applying `C3_tool_selection` at a concrete store and tool
whose diameter equals the limit exactly. -/
theorem C3_tool_selection_witness :
    let t : Tool := ⟨"T001", "endmill", 5, 8, 1, 4⟩
    t ∈ (get_machining_recommendation
      (some ⟨[⟨"T001", "endmill", 5, 8, 1, 4⟩], []⟩) false false
      "圆柱凸台" "plane" "粗加工" 5 6 7).suitable_tools := by
  intro t
  exact (C3_tool_selection ⟨[t], []⟩ "圆柱凸台" "plane" "粗加工" 5 6 7 t).2.1
    (by decide) (by decide) (by decide)

/-- C4: the returned tool list is sorted with diameter descending as primary
key, extension length ascending within diameter ties (`toolOrder`); the sort
is stable (tools with equal sort keys keep the store's filtered order); and
the first element, the designated best tool of
`_generate_recommendation_summary`, is `toolOrder`-before every returned
tool. -/
theorem C4_tool_ordering (store : Store) (diameter_limit height : Rat) :
    List.Sorted toolOrder
      (find_suitable_tools (some store) false diameter_limit height) ∧
    (∀ d e : Rat,
      (find_suitable_tools (some store) false diameter_limit height).filter
          (fun t => decide (t.diameter = d ∧ t.extension_length = e)) =
        (store.tools.filter (toolMatches diameter_limit height)).filter
          (fun t => decide (t.diameter = d ∧ t.extension_length = e))) ∧
    (∀ b t, best_tool (find_suitable_tools (some store) false diameter_limit height) =
        some b →
      t ∈ find_suitable_tools (some store) false diameter_limit height →
      toolOrder b t) := by
  have hdef : find_suitable_tools (some store) false diameter_limit height =
      List.insertionSort toolOrder
        (store.tools.filter (toolMatches diameter_limit height)) := by
    simp [find_suitable_tools, queryTools]
  refine ⟨?_, ?_, ?_⟩
  · rw [hdef]; exact List.sorted_insertionSort toolOrder _
  · intro d e
    rw [hdef]
    refine filter_insertionSort_of_mutual toolOrder _ _ ?_
    intro a b ha hb
    have ha' := of_decide_eq_true ha
    have hb' := of_decide_eq_true hb
    exact Or.inr ⟨ha'.1.trans hb'.1.symm, ha'.2.le.trans hb'.2.symm.le⟩
  · intro b t hb ht
    have hs : List.Sorted toolOrder
        (find_suitable_tools (some store) false diameter_limit height) := by
      rw [hdef]; exact List.sorted_insertionSort toolOrder _
    rcases hr : find_suitable_tools (some store) false diameter_limit height with
      _ | ⟨hd, tl⟩
    · rw [hr] at hb; simp [best_tool] at hb
    · rw [hr] at hb ht hs
      simp only [best_tool, List.head?] at hb
      cases hb
      rcases List.mem_cons.mp ht with h | h
      · exact h ▸ Or.inr ⟨rfl, le_refl _⟩
      · exact List.rel_of_sorted_cons hs t h

/-- C4 witness: applying `C4_tool_ordering` at a concrete two-tool store,
showing the first returned tool is `toolOrder`-before the other. -/
theorem C4_tool_ordering_witness :
    toolOrder ⟨"T2", "big", 5, 9, 1, 4⟩ ⟨"T1", "small", 3, 8, 1, 4⟩ := by
  have h := (C4_tool_ordering
    ⟨[⟨"T1", "small", 3, 8, 1, 4⟩, ⟨"T2", "big", 5, 9, 1, 4⟩], []⟩ 10 5).2.2
  exact h ⟨"T2", "big", 5, 9, 1, 4⟩ ⟨"T1", "small", 3, 8, 1, 4⟩
    (by decide) (by decide)

/-- C5: the template query selects exactly the templates matching the
feature name, the stage, and the surface type through either the
`surface_type` or the `feature_surface` field; the result is sorted
ascending by `template_id`; a fully unmatched store yields `[]`, not an
error. -/
theorem C5_template_query (store : Store) (fn st stage : String)
    (q : ProcessTemplate) :
    (q ∈ find_process_template (some store) false fn st stage ↔
      q ∈ store.templates ∧ q.feature_name = fn ∧
        (q.surface_type = st ∨ q.feature_surface = st) ∧
        q.process_stage = stage) ∧
    List.Sorted templateOrder (find_process_template (some store) false fn st stage) ∧
    ((∀ p ∈ store.templates,
        ¬(p.feature_name = fn ∧ (p.surface_type = st ∨ p.feature_surface = st) ∧
          p.process_stage = stage)) →
      find_process_template (some store) false fn st stage = []) := by
  have hdef : find_process_template (some store) false fn st stage =
      List.insertionSort templateOrder
        (store.templates.filter (templateMatches fn st stage)) := by
    simp [find_process_template, queryTemplates]
  refine ⟨?_, ?_, ?_⟩
  · rw [hdef]
    simp [List.mem_insertionSort, List.mem_filter, templateMatches, and_assoc]
  · rw [hdef]; exact List.sorted_insertionSort templateOrder _
  · intro hnone
    rw [hdef]
    have : store.templates.filter (templateMatches fn st stage) = [] := by
      rw [List.filter_eq_nil_iff]
      intro p hp
      simp only [templateMatches, decide_eq_true_eq]
      exact hnone p hp
    rw [this]
    rfl

/-- C5 witness: applying `C5_template_query` at a concrete store whose one
template matches on the `feature_surface` alias. -/
theorem C5_template_query_witness :
    (⟨"P001", "底壁铣", "平面", "other", "精加工", "顶面", "圆柱通孔"⟩ : ProcessTemplate) ∈
      find_process_template
        (some ⟨[], [⟨"P001", "底壁铣", "平面", "other", "精加工", "顶面", "圆柱通孔"⟩]⟩)
        false "圆柱通孔" "平面" "精加工" := by
  exact (C5_template_query
      ⟨[], [⟨"P001", "底壁铣", "平面", "other", "精加工", "顶面", "圆柱通孔"⟩]⟩
      "圆柱通孔" "平面" "精加工"
      ⟨"P001", "底壁铣", "平面", "other", "精加工", "顶面", "圆柱通孔"⟩).1.mpr
    ⟨by decide, by decide, Or.inr (by decide), by decide⟩

/-- C1 counterexample: with the store connection absent (`driver = none`,
the `if not self.driver` branch) both query methods return the empty list —
the very value a reachable store with no matching rows returns — and
`get_machining_recommendation` assembles an ordinary recommendation from
them; no error-carrying result exists, so the connectivity failure is NOT
distinguishable from the no-match case. -/
theorem C1_store_failure_counterexample :
    find_suitable_tools none false 10 5 =
      find_suitable_tools (some ⟨[⟨"T9", "huge", 50, 3, 1, 4⟩], []⟩) false 10 5 ∧
    find_suitable_tools none false 10 5 = [] ∧
    find_process_template none false "圆柱通孔" "平面" "精加工" =
      find_process_template (some ⟨[], []⟩) false "圆柱通孔" "平面" "精加工" ∧
    get_machining_recommendation none false false "圆柱通孔" "平面" "精加工" 10 10 5 =
      { process_templates := [], suitable_tools := [] } := by
  refine ⟨?_, rfl, rfl, rfl⟩
  decide

/-- C1 amended: on every store-connectivity failure (driver unset, or the
session query raising) `find_suitable_tools` and `find_process_template`
swallow the failure and return the empty list, and
`get_machining_recommendation` returns a normal `Recommendation` with two
empty lists; no distinct error outcome is produced. -/
theorem C1_store_failure_amended (store : Store) (queryRaises : Bool)
    (fn st stage : String) (diameter_limit height length width : Rat) :
    find_suitable_tools none queryRaises diameter_limit height = [] ∧
    find_suitable_tools (some store) true diameter_limit height = [] ∧
    find_process_template none queryRaises fn st stage = [] ∧
    find_process_template (some store) true fn st stage = [] ∧
    get_machining_recommendation none queryRaises queryRaises fn st stage
        length width height =
      { process_templates := [], suitable_tools := [] } ∧
    (get_machining_recommendation (some store) true true fn st stage
        length width height).process_templates = [] ∧
    (get_machining_recommendation (some store) true true fn st stage
        length width height).suitable_tools = [] := by
  refine ⟨rfl, rfl, rfl, rfl, rfl, rfl, rfl⟩

/-- C2 counterexample: the merge works by Python truthiness, not by
presence.  A present-but-empty rule feature name (producible by the rule
extractor, e.g. from `特征是 ，` whose captured group strips to `""`) is
overwritten by the LLM value, and a present-but-zero rule dimension
(producible from `直径0mm`) is overwritten by the LLM dimension — so a
present rule value does not always win. -/
theorem C2_merge_counterexample :
    let ruleP : Parameters :=
      { feature_name := some "", surface_type := some "平面",
        process_stage := none,
        dimensions := { diameter := some 0, length := none, width := none,
                        height := none, depth := none } }
    let llmP : Parameters :=
      { feature_name := some "圆孔", surface_type := some "垂直面",
        process_stage := none,
        dimensions := { diameter := some 5, length := none, width := none,
                        height := none, depth := none } }
    ruleP.feature_name.isSome ∧
    (merge_parameters ruleP (some llmP)).feature_name ≠ ruleP.feature_name ∧
    (merge_parameters ruleP (some llmP)).feature_name = some "圆孔" ∧
    ruleP.dimensions.diameter.isSome ∧
    (merge_parameters ruleP (some llmP)).dimensions.diameter ≠
      ruleP.dimensions.diameter ∧
    (merge_parameters ruleP (some llmP)).dimensions.diameter = some 5 := by
  decide

/-- Shared fact: a truthy rule value survives `mergeField`. -/
theorem mergeField_of_rule {r l : Option String} (h : strTruthy r) :
    mergeField r l = r := by
  simp [mergeField, h]

/-- Shared fact: a truthy LLM value fills a falsy rule value in
`mergeField`. -/
theorem mergeField_of_llm {r l : Option String} (hr : ¬ strTruthy r)
    (hl : strTruthy l) : mergeField r l = l := by
  simp [mergeField, hr, hl]

/-- Shared fact: a falsy LLM value never changes the rule value in
`mergeField`. -/
theorem mergeField_of_falsy_llm {r l : Option String} (hl : ¬ strTruthy l) :
    mergeField r l = r := by
  simp [mergeField, hl]

/-- Shared fact: a truthy rule value survives `mergeDim`. -/
theorem mergeDim_of_rule {r l : Option Rat} (h : ratTruthy r) :
    mergeDim r l = r := by
  simp [mergeDim, h]

/-- Shared fact: a truthy LLM value fills a falsy rule value in
`mergeDim`. -/
theorem mergeDim_of_llm {r l : Option Rat} (hr : ¬ ratTruthy r)
    (hl : ratTruthy l) : mergeDim r l = l := by
  simp [mergeDim, hr, hl]

/-- Shared fact: a falsy LLM value never changes the rule value in
`mergeDim`. -/
theorem mergeDim_of_falsy_llm {r l : Option Rat} (hl : ¬ ratTruthy l) :
    mergeDim r l = r := by
  simp [mergeDim, hl]

/-- C2 amended: merge precedence is by truthiness.  A TRUTHY rule value
(non-`None`, non-empty, non-zero) always wins; the LLM value is used only
when it is itself truthy and the rule value is falsy; a falsy LLM value
never changes anything; a falsy LLM dictionary leaves the rule parameters
untouched. -/
theorem C2_merge_precedence (rule llmp : Parameters) :
    merge_parameters rule none = rule ∧
    (strTruthy rule.feature_name →
      (merge_parameters rule (some llmp)).feature_name = rule.feature_name) ∧
    (¬ strTruthy rule.feature_name → strTruthy llmp.feature_name →
      (merge_parameters rule (some llmp)).feature_name = llmp.feature_name) ∧
    (¬ strTruthy llmp.feature_name →
      (merge_parameters rule (some llmp)).feature_name = rule.feature_name) ∧
    (strTruthy rule.surface_type →
      (merge_parameters rule (some llmp)).surface_type = rule.surface_type) ∧
    (¬ strTruthy rule.surface_type → strTruthy llmp.surface_type →
      (merge_parameters rule (some llmp)).surface_type = llmp.surface_type) ∧
    (¬ strTruthy llmp.surface_type →
      (merge_parameters rule (some llmp)).surface_type = rule.surface_type) ∧
    (strTruthy rule.process_stage →
      (merge_parameters rule (some llmp)).process_stage = rule.process_stage) ∧
    (¬ strTruthy rule.process_stage → strTruthy llmp.process_stage →
      (merge_parameters rule (some llmp)).process_stage = llmp.process_stage) ∧
    (¬ strTruthy llmp.process_stage →
      (merge_parameters rule (some llmp)).process_stage = rule.process_stage) ∧
    (ratTruthy rule.dimensions.diameter →
      (merge_parameters rule (some llmp)).dimensions.diameter =
        rule.dimensions.diameter) ∧
    (¬ ratTruthy rule.dimensions.diameter → ratTruthy llmp.dimensions.diameter →
      (merge_parameters rule (some llmp)).dimensions.diameter =
        llmp.dimensions.diameter) ∧
    (¬ ratTruthy llmp.dimensions.diameter →
      (merge_parameters rule (some llmp)).dimensions.diameter =
        rule.dimensions.diameter) ∧
    (ratTruthy rule.dimensions.length →
      (merge_parameters rule (some llmp)).dimensions.length =
        rule.dimensions.length) ∧
    (¬ ratTruthy rule.dimensions.length → ratTruthy llmp.dimensions.length →
      (merge_parameters rule (some llmp)).dimensions.length =
        llmp.dimensions.length) ∧
    (¬ ratTruthy llmp.dimensions.length →
      (merge_parameters rule (some llmp)).dimensions.length =
        rule.dimensions.length) ∧
    (ratTruthy rule.dimensions.width →
      (merge_parameters rule (some llmp)).dimensions.width =
        rule.dimensions.width) ∧
    (¬ ratTruthy rule.dimensions.width → ratTruthy llmp.dimensions.width →
      (merge_parameters rule (some llmp)).dimensions.width =
        llmp.dimensions.width) ∧
    (¬ ratTruthy llmp.dimensions.width →
      (merge_parameters rule (some llmp)).dimensions.width =
        rule.dimensions.width) ∧
    (ratTruthy rule.dimensions.height →
      (merge_parameters rule (some llmp)).dimensions.height =
        rule.dimensions.height) ∧
    (¬ ratTruthy rule.dimensions.height → ratTruthy llmp.dimensions.height →
      (merge_parameters rule (some llmp)).dimensions.height =
        llmp.dimensions.height) ∧
    (¬ ratTruthy llmp.dimensions.height →
      (merge_parameters rule (some llmp)).dimensions.height =
        rule.dimensions.height) ∧
    (ratTruthy rule.dimensions.depth →
      (merge_parameters rule (some llmp)).dimensions.depth =
        rule.dimensions.depth) ∧
    (¬ ratTruthy rule.dimensions.depth → ratTruthy llmp.dimensions.depth →
      (merge_parameters rule (some llmp)).dimensions.depth =
        llmp.dimensions.depth) ∧
    (¬ ratTruthy llmp.dimensions.depth →
      (merge_parameters rule (some llmp)).dimensions.depth =
        rule.dimensions.depth) := by
  refine ⟨rfl, ?_, ?_, ?_, ?_, ?_, ?_, ?_, ?_, ?_, ?_, ?_, ?_, ?_, ?_, ?_,
    ?_, ?_, ?_, ?_, ?_, ?_, ?_, ?_, ?_⟩
  · exact fun h => mergeField_of_rule h
  · exact fun hr hl => mergeField_of_llm hr hl
  · exact fun hl => mergeField_of_falsy_llm hl
  · exact fun h => mergeField_of_rule h
  · exact fun hr hl => mergeField_of_llm hr hl
  · exact fun hl => mergeField_of_falsy_llm hl
  · exact fun h => mergeField_of_rule h
  · exact fun hr hl => mergeField_of_llm hr hl
  · exact fun hl => mergeField_of_falsy_llm hl
  · exact fun h => mergeDim_of_rule h
  · exact fun hr hl => mergeDim_of_llm hr hl
  · exact fun hl => mergeDim_of_falsy_llm hl
  · exact fun h => mergeDim_of_rule h
  · exact fun hr hl => mergeDim_of_llm hr hl
  · exact fun hl => mergeDim_of_falsy_llm hl
  · exact fun h => mergeDim_of_rule h
  · exact fun hr hl => mergeDim_of_llm hr hl
  · exact fun hl => mergeDim_of_falsy_llm hl
  · exact fun h => mergeDim_of_rule h
  · exact fun hr hl => mergeDim_of_llm hr hl
  · exact fun hl => mergeDim_of_falsy_llm hl
  · exact fun h => mergeDim_of_rule h
  · exact fun hr hl => mergeDim_of_llm hr hl
  · exact fun hl => mergeDim_of_falsy_llm hl

/-- C2 witness: applying `C2_merge_precedence` at concrete conflicting
parameter sets — the truthy rule feature name survives the merge. -/
theorem C2_merge_precedence_witness :
    (merge_parameters
      { feature_name := some "圆柱凸台", surface_type := none,
        process_stage := none,
        dimensions := { diameter := some 12, length := none, width := none,
                        height := none, depth := none } }
      (some { feature_name := some "圆孔", surface_type := none,
              process_stage := none,
              dimensions := { diameter := some 7, length := none, width := none,
                              height := none, depth := none } })).feature_name =
      some "圆柱凸台" := by
  exact (C2_merge_precedence
    { feature_name := some "圆柱凸台", surface_type := none,
      process_stage := none,
      dimensions := { diameter := some 12, length := none, width := none,
                      height := none, depth := none } }
    { feature_name := some "圆孔", surface_type := none,
      process_stage := none,
      dimensions := { diameter := some 7, length := none, width := none,
                      height := none, depth := none } }).2.1 (by decide)

/-- A truthy optional number is in particular present. -/
theorem ratTruthy_isSome {x : Option Rat} (h : ratTruthy x) : x.isSome := by
  cases x <;> simp_all [ratTruthy]

/-- The completed process stage is always truthy. -/
theorem infer_stage_truthy (p : Parameters) :
    strTruthy (infer_missing_parameters p).process_stage := by
  rw [infer_stage_eq]
  split_ifs with h
  · exact h
  · decide

/-- The completed surface type is always truthy. -/
theorem infer_surface_truthy (p : Parameters) :
    strTruthy (infer_missing_parameters p).surface_type := by
  rw [infer_surface_eq]
  split_ifs with h
  · exact h
  · decide

/-- With a truthy diameter, the completed length is truthy. -/
theorem infer_length_truthy (p : Parameters)
    (h : ratTruthy p.dimensions.diameter) :
    ratTruthy (infer_missing_parameters p).dimensions.length := by
  rw [infer_length_eq]
  split_ifs with h1
  · exact h
  · rcases not_and_or.mp h1 with h2 | h2
    · exact absurd h h2
    · exact not_not.mp h2

/-- With a truthy diameter, the completed width is truthy. -/
theorem infer_width_truthy (p : Parameters)
    (h : ratTruthy p.dimensions.diameter) :
    ratTruthy (infer_missing_parameters p).dimensions.width := by
  rw [infer_width_eq]
  split_ifs with h1
  · exact h
  · rcases not_and_or.mp h1 with h2 | h2
    · exact absurd h h2
    · exact not_not.mp h2

/-- The completed height is always present. -/
theorem infer_height_isSome (p : Parameters) :
    (infer_missing_parameters p).dimensions.height.isSome := by
  rw [infer_height_eq]
  split_ifs with h1 h2 h3
  · simp only [Option.isSome_map']
    exact h2
  · rfl
  · exact ratTruthy_isSome h3.1
  · have hh : ratTruthy p.dimensions.height := by
      by_contra hcon
      rcases not_and_or.mp h1 with h4 | h4
      · exact h4 hcon
      · exact h3 ⟨not_not.mp h4, hcon⟩
    exact ratTruthy_isSome hh

/-- A truthy height is left untouched by completion. -/
theorem infer_height_of_truthy (p : Parameters)
    (h : ratTruthy p.dimensions.height) :
    (infer_missing_parameters p).dimensions.height = p.dimensions.height := by
  rw [infer_height_eq]
  rw [if_neg (by simp [h]), if_neg (by simp [h])]

/-- C6: `_infer_missing_parameters` is deterministic and total (a pure Lean
function), always yields a parameter set with truthy process stage and
surface type, a present height, and a truthy length/width whenever the
diameter is truthy; and each of its five defaulting rules acts exactly as
specified, in the fixed order, leaving the feature name, diameter and depth
untouched. -/
theorem C6_complete_total (p : Parameters) :
    strTruthy (infer_missing_parameters p).process_stage ∧
    strTruthy (infer_missing_parameters p).surface_type ∧
    (infer_missing_parameters p).dimensions.height.isSome ∧
    (ratTruthy p.dimensions.diameter →
      ratTruthy (infer_missing_parameters p).dimensions.length ∧
      ratTruthy (infer_missing_parameters p).dimensions.width) ∧
    (infer_missing_parameters p).feature_name = p.feature_name ∧
    (infer_missing_parameters p).dimensions.diameter = p.dimensions.diameter ∧
    (infer_missing_parameters p).dimensions.depth = p.dimensions.depth ∧
    (ratTruthy p.dimensions.diameter → ¬ ratTruthy p.dimensions.length →
      (infer_missing_parameters p).dimensions.length = p.dimensions.diameter) ∧
    (ratTruthy p.dimensions.length →
      (infer_missing_parameters p).dimensions.length = p.dimensions.length) ∧
    (¬ ratTruthy p.dimensions.diameter →
      (infer_missing_parameters p).dimensions.length = p.dimensions.length) ∧
    (ratTruthy p.dimensions.diameter → ¬ ratTruthy p.dimensions.width →
      (infer_missing_parameters p).dimensions.width = p.dimensions.diameter) ∧
    (ratTruthy p.dimensions.width →
      (infer_missing_parameters p).dimensions.width = p.dimensions.width) ∧
    (¬ ratTruthy p.dimensions.diameter →
      (infer_missing_parameters p).dimensions.width = p.dimensions.width) ∧
    (strTruthy p.process_stage →
      (infer_missing_parameters p).process_stage = p.process_stage) ∧
    (¬ strTruthy p.process_stage →
      (infer_missing_parameters p).process_stage = some "粗加工") ∧
    (strTruthy p.surface_type →
      (infer_missing_parameters p).surface_type = p.surface_type) ∧
    (¬ strTruthy p.surface_type →
      (infer_missing_parameters p).surface_type = some "plane") ∧
    (¬ ratTruthy p.dimensions.height → ¬ ratTruthy p.dimensions.depth →
      p.dimensions.diameter.isSome →
      (infer_missing_parameters p).dimensions.height =
        Option.map (fun x => x * 2) p.dimensions.diameter) ∧
    (¬ ratTruthy p.dimensions.height → ¬ ratTruthy p.dimensions.depth →
      p.dimensions.diameter = none →
      (infer_missing_parameters p).dimensions.height = some 10) ∧
    (ratTruthy p.dimensions.depth → ¬ ratTruthy p.dimensions.height →
      (infer_missing_parameters p).dimensions.height = p.dimensions.depth) ∧
    (ratTruthy p.dimensions.height →
      (infer_missing_parameters p).dimensions.height = p.dimensions.height) := by
  refine ⟨infer_stage_truthy p, infer_surface_truthy p, infer_height_isSome p,
    fun h => ⟨infer_length_truthy p h, infer_width_truthy p h⟩,
    infer_feature_eq p, infer_diameter_eq p, infer_depth_eq p,
    ?_, ?_, ?_, ?_, ?_, ?_, ?_, ?_, ?_, ?_, ?_, ?_, ?_, ?_⟩
  · intro h1 h2
    rw [infer_length_eq, if_pos ⟨h1, h2⟩]
  · intro h
    rw [infer_length_eq, if_neg (by simp [h])]
  · intro h
    rw [infer_length_eq, if_neg (by simp [h])]
  · intro h1 h2
    rw [infer_width_eq, if_pos ⟨h1, h2⟩]
  · intro h
    rw [infer_width_eq, if_neg (by simp [h])]
  · intro h
    rw [infer_width_eq, if_neg (by simp [h])]
  · intro h
    rw [infer_stage_eq, if_pos h]
  · intro h
    rw [infer_stage_eq, if_neg h]
  · intro h
    rw [infer_surface_eq, if_pos h]
  · intro h
    rw [infer_surface_eq, if_neg h]
  · intro h1 h2 h3
    rw [infer_height_eq, if_pos ⟨h1, h2⟩, if_pos h3]
  · intro h1 h2 h3
    rw [infer_height_eq, if_pos ⟨h1, h2⟩, if_neg (by simp [h3])]
  · intro h1 h2
    rw [infer_height_eq, if_neg (by simp [h1]), if_pos ⟨h1, h2⟩]
  · exact infer_height_of_truthy p

/-- C6 witness: applying `C6_complete_total` to an empty parameter set —
the defaults `粗加工`, `plane` and height `10.0` are produced. -/
theorem C6_complete_total_witness :
    (infer_missing_parameters emptyParameters).process_stage = some "粗加工" ∧
    (infer_missing_parameters emptyParameters).surface_type = some "plane" ∧
    (infer_missing_parameters emptyParameters).dimensions.height = some 10 := by
  obtain ⟨-, -, -, -, -, -, -, -, -, -, -, -, -, -, h15, -, h17, -, h19, -, -⟩ :=
    C6_complete_total emptyParameters
  exact ⟨h15 (by decide), h17 (by decide), h19 (by decide) (by decide) (by decide)⟩

/-- C7: completing an already-completed parameter set changes nothing —
`_infer_missing_parameters` is idempotent. -/
theorem C7_complete_idempotent (p : Parameters) :
    infer_missing_parameters (infer_missing_parameters p) =
      infer_missing_parameters p := by
  apply Parameters.ext
  · rw [infer_feature_eq]
  · rw [infer_surface_eq, if_pos (infer_surface_truthy p)]
  · rw [infer_stage_eq, if_pos (infer_stage_truthy p)]
  · apply Dimensions.ext
    · rw [infer_diameter_eq]
    · rw [infer_length_eq]
      by_cases hd : ratTruthy (infer_missing_parameters p).dimensions.diameter
      · have hl : ratTruthy (infer_missing_parameters p).dimensions.length := by
          apply infer_length_truthy
          rwa [infer_diameter_eq] at hd
        rw [if_neg (by simp [hl])]
      · rw [if_neg (by simp [hd])]
    · rw [infer_width_eq]
      by_cases hd : ratTruthy (infer_missing_parameters p).dimensions.diameter
      · have hw : ratTruthy (infer_missing_parameters p).dimensions.width := by
          apply infer_width_truthy
          rwa [infer_diameter_eq] at hd
        rw [if_neg (by simp [hw])]
      · rw [if_neg (by simp [hd])]
    · by_cases hh : ratTruthy (infer_missing_parameters p).dimensions.height
      · exact infer_height_of_truthy _ hh
      · -- the completed height can only be falsy when the original height
        -- and depth were falsy and the diameter was a present zero
        have hq := infer_height_eq p
        by_cases h1 : ¬ ratTruthy p.dimensions.height ∧ ¬ ratTruthy p.dimensions.depth
        · rw [if_pos h1] at hq
          rcases hdia : p.dimensions.diameter with _ | x
          · rw [hdia] at hq
            simp only [Option.isSome_none, Bool.false_eq_true, if_false] at hq
            exact absurd (by rw [hq]; decide) hh
          · rw [hdia] at hq
            simp only [Option.isSome_some, if_true, Option.map_some'] at hq
            rw [infer_height_eq]
            have hdep : ¬ ratTruthy (infer_missing_parameters p).dimensions.depth := by
              rw [infer_depth_eq]; exact h1.2
            rw [if_pos ⟨hh, hdep⟩]
            rw [infer_diameter_eq, hdia]
            simp only [Option.isSome_some, if_true, Option.map_some']
            exact hq.symm ▸ rfl
        · rcases not_and_or.mp h1 with h2 | h2
          · exact absurd (infer_height_of_truthy p (not_not.mp h2) ▸ not_not.mp h2) hh
          · have hdep := not_not.mp h2
            by_cases h3 : ratTruthy p.dimensions.height
            · exact absurd (infer_height_of_truthy p h3 ▸ h3) hh
            · rw [if_neg h1, if_pos ⟨hdep, h3⟩] at hq
              exact absurd (hq ▸ hdep) hh
    · rw [infer_depth_eq]

/-- C9: the standardized answer always has the fixed three-slot shape
`推荐模板ID：…  推荐加工工艺：…  推荐刀具ID：…`; the first two slots carry the
first template's `template_id` and `process_type` when a template exists
and the literal `无` otherwise, and the third slot carries the first tool's
`tool_id` when a tool exists and `无` otherwise. -/
theorem C9_summary_shape (rec : Option Recommendation) :
    ∃ a b c : String,
      generate_standardized_answer rec =
        "推荐模板ID：" ++ a ++ "  推荐加工工艺：" ++ b ++ "  推荐刀具ID：" ++ c ∧
      (rec = none → a = "无" ∧ b = "无" ∧ c = "无") ∧
      (∀ r, rec = some r →
        (r.process_templates = [] → a = "无" ∧ b = "无") ∧
        (∀ t rest, r.process_templates = t :: rest →
          a = t.template_id ∧ b = t.process_type) ∧
        (r.suitable_tools = [] → c = "无") ∧
        (∀ u rest, r.suitable_tools = u :: rest → c = u.tool_id)) := by
  rcases rec with _ | ⟨pts, sts⟩
  · exact ⟨"无", "无", "无", by decide, fun _ => ⟨rfl, rfl, rfl⟩, by simp⟩
  · rcases pts with _ | ⟨t, pts'⟩ <;> rcases sts with _ | ⟨u, sts'⟩
    · exact ⟨"无", "无", "无", rfl, by simp, by simp⟩
    · exact ⟨"无", "无", u.tool_id, rfl, by simp, by simp⟩
    · exact ⟨t.template_id, t.process_type, "无", rfl, by simp, by simp⟩
    · exact ⟨t.template_id, t.process_type, u.tool_id, rfl, by simp, by simp⟩

/-- C9 witness: applying `C9_summary_shape` to a recommendation with no
template and one tool — the template slots render `无` (cf. spec scenario
C). -/
theorem C9_summary_shape_witness :
    generate_standardized_answer
        (some { process_templates := [],
                suitable_tools := [⟨"T001", "endmill", 5, 8, 1, 4⟩] }) =
      "推荐模板ID：" ++ "无" ++ "  推荐加工工艺：" ++ "无" ++ "  推荐刀具ID：" ++ "T001" := by
  obtain ⟨a, b, c, h1, -, h3⟩ := C9_summary_shape
    (some { process_templates := [],
            suitable_tools := [⟨"T001", "endmill", 5, 8, 1, 4⟩] })
  obtain ⟨he, -, -, hu⟩ := h3 _ rfl
  obtain ⟨ha, hb⟩ := he rfl
  have hc := hu ⟨"T001", "endmill", 5, 8, 1, 4⟩ [] rfl
  rw [h1, ha, hb, hc]

/-- Membership characterization of the template query (shared helper). -/
theorem mem_queryTemplates {templates : List ProcessTemplate}
    {fn st stage : String} {q : ProcessTemplate} :
    q ∈ queryTemplates templates fn st stage ↔
      q ∈ templates ∧ q.feature_name = fn ∧
        (q.surface_type = st ∨ q.feature_surface = st) ∧
        q.process_stage = stage := by
  simp [queryTemplates, List.mem_insertionSort, List.mem_filter,
    templateMatches, and_assoc]

/-- C10: feature-name normalization is applied only on the rule-extraction
path; a feature name contributed by the LLM passes through the merge
unchanged, so the synonym `圆孔` reaches the matcher un-normalized and
matches no template that the canonical `圆柱通孔` would match. -/
theorem C10_llm_name_unnormalized (rule llmp : Parameters)
    (store : Store)
    (hrule : ¬ strTruthy rule.feature_name)
    (hllm : strTruthy llmp.feature_name) :
    (merge_parameters rule (some llmp)).feature_name = llmp.feature_name ∧
    normalize_feature_name "圆孔" = "圆柱通孔" ∧
    "圆孔" ≠ "圆柱通孔" ∧
    ((∀ q ∈ store.templates, q.feature_name = "圆柱通孔") →
      ∀ q, q ∉ find_process_template (some store) false "圆孔" "平面" "精加工") := by
  refine ⟨mergeField_of_llm hrule hllm, by decide, by decide, ?_⟩
  intro hall q hq
  have hdef : find_process_template (some store) false "圆孔" "平面" "精加工" =
      queryTemplates store.templates "圆孔" "平面" "精加工" := rfl
  rw [hdef] at hq
  obtain ⟨hmem, hfn, -, -⟩ := mem_queryTemplates.mp hq
  rw [hall q hmem] at hfn
  exact absurd hfn (by decide)

/-- C10 witness: applying `C10_llm_name_unnormalized` where rule extraction
found nothing and the LLM produced the synonym `圆孔` — the merged value is
the raw synonym. -/
theorem C10_llm_name_unnormalized_witness :
    (merge_parameters emptyParameters
      (some { feature_name := some "圆孔", surface_type := none,
              process_stage := none,
              dimensions := { diameter := none, length := none, width := none,
                              height := none, depth := none } })).feature_name =
      some "圆孔" := by
  exact (C10_llm_name_unnormalized emptyParameters
    { feature_name := some "圆孔", surface_type := none,
      process_stage := none,
      dimensions := { diameter := none, length := none, width := none,
                      height := none, depth := none } }
    ⟨[], []⟩ (by decide) (by decide)).1

/-- C8 counterexample: the source's greedy `\x7b.*\x7d` extraction runs from
the first opening brace to the LAST closing brace, not to the first balanced
one.  On a response holding two JSON objects the extracted span is the whole
`\x7bx\x7d \x7by\x7d`, not the first balanced `\x7bx\x7d`; a parser that
accepts exactly the balanced object therefore fails and the step returns the
empty result, while the specified extraction would succeed. -/
theorem C8_greedy_counterexample :
    jsonSpan ("\x7bx\x7d \x7by\x7d".toList) =
      some ("\x7bx\x7d \x7by\x7d".toList) ∧
    specFirstBalancedSpan ("\x7bx\x7d \x7by\x7d".toList) =
      some ("\x7bx\x7d".toList) ∧
    jsonSpan ("\x7bx\x7d \x7by\x7d".toList) ≠
      specFirstBalancedSpan ("\x7bx\x7d \x7by\x7d".toList) ∧
    analyze_question_with_llm
      (fun span => if span = "\x7bx\x7d".toList then some emptyParameters
                   else none)
      (some ("\x7bx\x7d \x7by\x7d".toList)) = none ∧
    (specFirstBalancedSpan ("\x7bx\x7d \x7by\x7d".toList)).bind
      (fun span => if span = "\x7bx\x7d".toList then some emptyParameters
                   else none) = some emptyParameters := by
  refine ⟨by decide, by decide, by decide, by decide, by decide⟩

/-- Structure of a successful greedy extraction: the span runs from the
first opening brace of the response to the last closing brace; nothing
before it is an opening brace and nothing after it is a closing brace. -/
theorem jsonSpan_decomposition {cs span : List Char}
    (h : jsonSpan cs = some span) :
    ∃ pre post, cs = pre ++ span ++ post ∧
      (∀ c ∈ pre, c ≠ '\x7b') ∧ (∀ c ∈ post, c ≠ '\x7d') ∧
      span.head? = some '\x7b' ∧ span.getLast? = some '\x7d' := by
  unfold jsonSpan at h
  by_cases hempty :
      ((cs.dropWhile (fun c => c ≠ '\x7b')).reverse.dropWhile
        (fun c => c ≠ '\x7d')).reverse = []
  · rw [if_pos hempty] at h
    exact absurd h (by simp)
  · rw [if_neg hempty] at h
    have hspan := Option.some.inj h
    subst hspan
    set t := cs.dropWhile (fun c => c ≠ '\x7b') with ht
    set r := (t.reverse.dropWhile (fun c => c ≠ '\x7d')).reverse with hr
    have h1 : cs.takeWhile (fun c => c ≠ '\x7b') ++ t = cs :=
      List.takeWhile_append_dropWhile _ _
    have h2 : t.reverse.takeWhile (fun c => c ≠ '\x7d') ++
        t.reverse.dropWhile (fun c => c ≠ '\x7d') = t.reverse :=
      List.takeWhile_append_dropWhile _ _
    have h3 : t = r ++ (t.reverse.takeWhile (fun c => c ≠ '\x7d')).reverse := by
      have h4 := congrArg List.reverse h2
      rw [List.reverse_append, List.reverse_reverse] at h4
      rw [hr, h4]
    refine ⟨cs.takeWhile (fun c => c ≠ '\x7b'),
      (t.reverse.takeWhile (fun c => c ≠ '\x7d')).reverse, ?_, ?_, ?_, ?_, ?_⟩
    · rw [List.append_assoc, ← h3, h1]
    · intro c hc
      have := List.all_eq_true.mp (List.all_takeWhile (l := cs)) c hc
      exact of_decide_eq_true this
    · intro c hc
      rw [List.mem_reverse] at hc
      have := List.all_eq_true.mp (List.all_takeWhile (l := t.reverse)) c hc
      exact of_decide_eq_true this
    · rcases hrc : r with _ | ⟨y, r'⟩
      · exact absurd hrc hempty
      · have hth : t.head? = some y := by
          rw [h3, hrc]
          rfl
        have hfail := List.head?_dropWhile_not (fun c => c ≠ '\x7b') cs
        rw [← ht, hth] at hfail
        have hy : y = '\x7b' := by simpa using hfail
        simp [hy]
    · have hrev : r.reverse = t.reverse.dropWhile (fun c => c ≠ '\x7d') := by
        rw [hr, List.reverse_reverse]
      have hne : r.reverse ≠ [] := by
        simpa using hempty
      rcases hrc : r.reverse with _ | ⟨z, r'⟩
      · exact absurd hrc hne
      · have hfail := List.head?_dropWhile_not (fun c => c ≠ '\x7d') t.reverse
        rw [← hrev, hrc] at hfail
        have hz : z = '\x7d' := by simpa using hfail
        rw [List.getLast?_eq_head?_reverse, hrc]
        simp [hz]

/-- C8 amended: `_analyze_question_with_llm` extracts the GREEDY
`\x7b...\x7d` span of the response — from its first opening brace to its
last closing brace — and feeds it to the JSON parser; a missing response,
an unmatched response, or a parse failure all yield the empty result and
nothing is raised (the function is total). -/
theorem C8_llm_extraction (parse : List Char → Option Parameters)
    (cs span : List Char) :
    analyze_question_with_llm parse none = none ∧
    (jsonSpan cs = none → analyze_question_with_llm parse (some cs) = none) ∧
    (jsonSpan cs = some span →
      analyze_question_with_llm parse (some cs) = parse span ∧
      ∃ pre post, cs = pre ++ span ++ post ∧
        (∀ c ∈ pre, c ≠ '\x7b') ∧ (∀ c ∈ post, c ≠ '\x7d') ∧
        span.head? = some '\x7b' ∧ span.getLast? = some '\x7d') := by
  refine ⟨rfl, ?_, ?_⟩
  · intro h
    simp [analyze_question_with_llm, h]
  · intro h
    exact ⟨by simp [analyze_question_with_llm, h], jsonSpan_decomposition h⟩

/-- C8 witness: applying `C8_llm_extraction` to a brace-free response — the
step returns the empty result. -/
theorem C8_llm_extraction_witness :
    analyze_question_with_llm (fun _ => some emptyParameters)
      (some ("no json here".toList)) = none := by
  exact (C8_llm_extraction (fun _ => some emptyParameters)
    ("no json here".toList) []).2.1 (by decide)

end AICam
